import Mathlib

/-!
Verification of the quote-resolution, caching and subscription-broadcast
subsystem of the demo trading backend (`market_data.py` and the
`ConnectionManager` of `main.py`), via a shallow embedding in Lean.

Python `Decimal` values are modelled as `ℚ`; network adapters are modelled
as oracle inputs in an `Env` record; the seeded PRNG (`random.seed` on an
md5-derived seed followed by `random.uniform` / `random.randint` draws) is
modelled as deterministic functions of the seed and the draw index, which
is exactly the determinism property the code relies on.
-/

namespace MarketData

/-- Adapter result dicts (`get_stock_quote_finnhub`, `get_crypto_price`,
`get_mock_price`, `get_stock_quote_yfinance` all build dicts of this shape).
`change` and `change_percent` distinguish *key absent* (`none`) from
*key present with value `None`* (`some none`), because `get_quote` tests
`"change" not in quote_data`, i.e. key presence, not truthiness. -/
structure AdapterDict where
  current_price : ℚ
  open_price : Option ℚ := none
  high_price : Option ℚ := none
  low_price : Option ℚ := none
  previous_close : Option ℚ := none
  change : Option (Option ℚ) := none
  change_percent : Option (Option ℚ) := none
  volume : Option ℤ := none
  deriving DecidableEq, Repr

/-- The dict returned by `get_quote`: on a cache hit only `symbol`,
`asset_type`, `current_price` and `cached=True` are set; on a miss the
adapter fields are spread in and there is no `cached` key (modelled as
`cached = false`). -/
structure Quote where
  symbol : String
  asset_type : String
  current_price : ℚ
  open_price : Option ℚ := none
  high_price : Option ℚ := none
  low_price : Option ℚ := none
  previous_close : Option ℚ := none
  change : Option ℚ := none
  change_percent : Option ℚ := none
  volume : Option ℤ := none
  cached : Bool := false
  deriving DecidableEq, Repr

/-! ## Cache helpers (`get_cached_price` / `set_cached_price`)

The Redis backend is `absent` (module-level `redis_client is None`),
`failing` (every operation raises, caught by the `try/except` in the two
helpers), or `live` with a store of `key ↦ (value, expiry-time)`;
`setex symbol ttl v` stores `v` with expiry `now + ttl`, and `get` returns
the value only while `now < expiry`. -/

inductive RedisBackend
  | absent
  | failing
  | live (store : List (String × ℚ × ℕ))
  deriving DecidableEq, Repr

/-- Association-list update used to model a Redis `SETEX` (overwrite). -/
def storeSet (store : List (String × ℚ × ℕ)) (k : String) (v : ℚ × ℕ) :
    List (String × ℚ × ℕ) :=
  (k, v) :: store.filter (fun e => e.1 ≠ k)

/-- `get_cached_price(symbol)`: `None` when there is no client, when the
operation raises (caught), when the key is missing, or when the entry has
expired; otherwise the stored decimal. -/
def get_cached_price (b : RedisBackend) (now : ℕ) (symbol : String) : Option ℚ :=
  match b with
  | .absent => none
  | .failing => none
  | .live store =>
    match store.lookup ("price:" ++ symbol) with
    | some (v, exp) => if now < exp then some v else none
    | none => none

/-- `set_cached_price(symbol, price, ttl=10)`: a no-op when there is no
client or the operation raises; otherwise `SETEX` with expiry `now + ttl`. -/
def set_cached_price (b : RedisBackend) (now : ℕ) (symbol : String) (price : ℚ)
    (ttl : ℕ := 10) : RedisBackend :=
  match b with
  | .absent => .absent
  | .failing => .failing
  | .live store => .live (storeSet store ("price:" ++ symbol) (price, now + ttl))

/-! ## Synthetic (mock) adapter (`get_mock_price`) -/

/-- The `base_prices` table of `get_mock_price` (and of
`get_mock_historical_data`, which repeats it verbatim). -/
def base_prices : List (String × ℚ) :=
  [("AAPL", 250), ("MSFT", 425), ("GOOGL", 175), ("TSLA", 380),
   ("AMZN", 215), ("META", 575), ("NVDA", 140), ("SPY", 590),
   ("QQQ", 515), ("BTCUSD", 95000), ("ETHUSD", 3600), ("SOLUSD", 210)]

/-- `get_mock_price(symbol)`.  `md5seed` models
`int(hashlib.md5(symbol.encode()).hexdigest()[:8], 16)` and
`uniform lo hi seed` models the first `random.uniform(lo, hi)` draw after
`random.seed(seed)`; `now` is epoch seconds, so `now / 60` is the
minute bucket (`int(time.time() / 60)`). -/
def get_mock_price (md5seed : String → ℕ) (uniform : ℚ → ℚ → ℕ → ℚ)
    (symbol : String) (now : ℕ) : AdapterDict :=
  let seed := md5seed symbol + now / 60
  let base_price := (base_prices.lookup symbol).getD 100
  let variation := uniform (-(2/100)) (2/100) seed
  let current_price := base_price * (1 + variation)
  let previous_close := base_price
  let change := current_price - previous_close
  let change_percent := if previous_close > 0 then change / previous_close * 100 else 0
  { current_price := current_price
    open_price := some previous_close
    high_price := some (current_price * (101/100))
    low_price := some (current_price * (99/100))
    previous_close := some previous_close
    change := some (some change)
    change_percent := some (some change_percent) }

/-! ## Quote resolution (`get_quote`) -/

/-- The upstream sources consulted on a cache miss. -/
inductive Adapter
  | finnhub
  | yfinance
  | binance
  deriving DecidableEq, Repr

/-- Oracle inputs for one resolution: what each network source would
answer right now, the PRNG functions, and the current time.
`finnhub = none` covers a missing/placeholder API key, a non-200 status, a
falsy `c` field, or a raised-and-caught exception; `yfin` is real yfinance
data when `fast_info`/`info` yield a positive price, `none` otherwise
(in which case `get_stock_quote_yfinance` returns the mock);
`crypto = none` covers any Binance failure. -/
structure Env where
  finnhub : Option AdapterDict
  yfin : Option AdapterDict
  crypto : Option AdapterDict
  md5seed : String → ℕ
  uniform : ℚ → ℚ → ℕ → ℚ
  now : ℕ

/-- `get_stock_quote_yfinance(symbol)`: real data when available, otherwise
`get_mock_price` — every path of the Python function returns a dict. -/
def get_stock_quote_yfinance (env : Env) (symbol : String) : AdapterDict :=
  match env.yfin with
  | some q => q
  | none => get_mock_price env.md5seed env.uniform symbol env.now

/-- `get_crypto_price(symbol)`: the Binance answer, or `None` on any
failure (caught exception or non-200 status). -/
def get_crypto_price (env : Env) : Option AdapterDict :=
  env.crypto

/-- Python truthiness of `quote_data.get("previous_close")`: the key must
be present with a nonzero decimal. -/
def truthyPC (pc : Option ℚ) : Bool :=
  match pc with
  | some v => v ≠ 0
  | none => false

/-- First derived-field step of `get_quote`: if the `change` key is absent
and `previous_close` is truthy, set
`change = current_price - previous_close`. -/
def deriveChange (q : AdapterDict) : AdapterDict :=
  if q.change = none ∧ truthyPC q.previous_close then
    { q with change := some (some (q.current_price - (q.previous_close.getD 0))) }
  else q

/-- Both derived-field steps at the end of `get_quote`: after
`deriveChange`, if the `change_percent` key is absent, `previous_close` is
truthy and `> 0`, set `change_percent = change / previous_close * 100`.
The second step reads `quote_data["change"]`; if that key holds `None` the
division raises a `TypeError`, modelled as `.error`. -/
def deriveFields (q : AdapterDict) : Except String AdapterDict :=
  if (deriveChange q).change_percent = none ∧ truthyPC (deriveChange q).previous_close ∧
      (deriveChange q).previous_close.getD 0 > 0 then
    match (deriveChange q).change with
    | some (some c) =>
      .ok { deriveChange q with
            change_percent := some (some (c / (deriveChange q).previous_close.getD 0 * 100)) }
    | _ => .error "TypeError"
  else .ok (deriveChange q)

/-- Assemble the final `get_quote` return dict on the cache-miss path:
`{"symbol", "asset_type", "timestamp", **quote_data}` (no `cached` key). -/
def mkQuote (symbol asset_type : String) (q : AdapterDict) : Quote :=
  { symbol := symbol
    asset_type := asset_type
    current_price := q.current_price
    open_price := q.open_price
    high_price := q.high_price
    low_price := q.low_price
    previous_close := q.previous_close
    change := q.change.join
    change_percent := q.change_percent.join
    volume := q.volume }

/-- Outcome of `get_quote`: the returned dict or the raised exception, the
Redis state afterwards, and the list of upstream adapters invoked, in
order. -/
structure ResolveResult where
  result : Except String Quote
  cache : RedisBackend
  tried : List Adapter

/-- Adapter selection of `get_quote` (the `if asset_type == "crypto"`
block): the chosen `quote_data` and the adapters consulted, in order.
`crypto` asset type consults only Binance; anything else tries Finnhub
then (only on Finnhub returning `None`) yfinance. -/
def selectAdapters (env : Env) (symbol asset_type : String) :
    Option AdapterDict × List Adapter :=
  if asset_type = "crypto" then
    (get_crypto_price env, [.binance])
  else
    match env.finnhub with
    | some q => (some q, [.finnhub])
    | none => (some (get_stock_quote_yfinance env symbol), [.finnhub, .yfinance])

/-- The body of `get_quote` after the cache check: adapter selection;
`None` from the chain raises `ValueError`; otherwise the price is cached
(ttl 10) and the derived fields computed. -/
def resolveUncached (b : RedisBackend) (env : Env) (symbol asset_type : String) :
    ResolveResult :=
  match (selectAdapters env symbol asset_type).1 with
  | none => ⟨.error ("Unable to fetch quote for " ++ symbol), b,
             (selectAdapters env symbol asset_type).2⟩
  | some quote_data =>
    match deriveFields quote_data with
    | .error e => ⟨.error e, set_cached_price b env.now symbol quote_data.current_price,
                   (selectAdapters env symbol asset_type).2⟩
    | .ok qd => ⟨.ok (mkQuote symbol asset_type qd),
                 set_cached_price b env.now symbol quote_data.current_price,
                 (selectAdapters env symbol asset_type).2⟩

/-- `get_quote(symbol, asset_type)`: cache lookup first; `if cached_price:`
is a Python truthiness test, so a hit needs a present *and nonzero* cached
decimal, and the hit is returned immediately with `cached=True` and no
adapter consulted; otherwise resolution proceeds uncached. -/
def get_quote (b : RedisBackend) (env : Env) (symbol asset_type : String) :
    ResolveResult :=
  let cached_price := get_cached_price b env.now symbol
  match cached_price with
  | some p =>
    if p ≠ 0 then
      ⟨.ok { symbol := symbol, asset_type := asset_type, current_price := p,
             cached := true }, b, []⟩
    else resolveUncached b env symbol asset_type
  | none => resolveUncached b env symbol asset_type

/-! ## Historical data (`get_mock_historical_data`, `get_historical_data_yfinance`,
`get_historical_data`) -/

/-- One daily bar of a historical series.  The `date` string
`(current_date - timedelta(days=i)).strftime("%Y-%m-%d")` is modelled as
the day number `now - i` (an integer count of days). -/
structure Bar where
  date : ℤ
  openP : ℚ
  high : ℚ
  low : ℚ
  close : ℚ
  volume : ℕ
  deriving DecidableEq, Repr

/-- The `days_map` lookup of `get_mock_historical_data` with default 30. -/
def daysFor (period : String) : ℕ :=
  (([("1d", 1), ("5d", 5), ("1mo", 30), ("3mo", 90), ("6mo", 180),
     ("1y", 365)] : List (String × ℕ)).lookup period).getD 30

/-- The loop `for i in range(days, 0, -1)` of `get_mock_historical_data`.
`uniform lo hi seed idx` is the value of the `idx`-th `random.uniform`
draw after `random.seed(seed)` when that draw is `random.uniform(lo, hi)`,
and `randint lo hi seed idx` likewise for `random.randint(lo, hi)`; each
iteration makes four uniform draws and one randint draw, so iteration `j`
uses uniform draw indices `4*j .. 4*j+3` and randint index `j`. -/
def mockHistAux (uniform : ℚ → ℚ → ℕ → ℕ → ℚ) (randint : ℕ → ℕ → ℕ → ℕ → ℕ)
    (seed : ℕ) (nowDay : ℤ) (price : ℚ) (i idx rIdx : ℕ) : List Bar :=
  match i with
  | 0 => []
  | i' + 1 =>
    let change := uniform (-(15/1000)) (15/1000) seed idx
    let price2 := price * (1 + change)
    let day_high := price2 * uniform (1001/1000) (1015/1000) seed (idx + 1)
    let day_low := price2 * uniform (985/1000) (999/1000) seed (idx + 2)
    let open_price := price2 * uniform (995/1000) (1005/1000) seed (idx + 3)
    let close_price := price2
    { date := nowDay - (i' + 1 : ℕ), openP := open_price, high := day_high,
      low := day_low, close := close_price,
      volume := randint 1000000 100000000 seed rIdx }
      :: mockHistAux uniform randint seed nowDay price2 i' (idx + 4) (rIdx + 1)

/-- `get_mock_historical_data(symbol, period)`: seed from md5 of the symbol
only, walk `days` bars ending yesterday.  (The Python rounds prices to two
decimals; rounding is omitted as it does not affect any claim here.) -/
def get_mock_historical_data (md5seed : String → ℕ)
    (uniform : ℚ → ℚ → ℕ → ℕ → ℚ) (randint : ℕ → ℕ → ℕ → ℕ → ℕ)
    (symbol period : String) (nowDay : ℤ) : List Bar :=
  let base_price := (base_prices.lookup symbol).getD 100
  let days := daysFor period
  let seed := md5seed symbol
  mockHistAux uniform randint seed nowDay base_price days 0 0

/-- Oracle inputs for one history resolution: what `ticker.history` yields
(`none` models a raised exception — every `except` path of the Python
function returns the mock — and `some rows` a dataframe with those rows),
plus the PRNG functions and the current day. -/
structure HistEnv where
  yfinHist : Option (List Bar)
  md5seed : String → ℕ
  uniform : ℚ → ℚ → ℕ → ℕ → ℚ
  randint : ℕ → ℕ → ℕ → ℕ → ℕ
  nowDay : ℤ

/-- `get_historical_data_yfinance(symbol, period)`: the real rows when the
dataframe is non-empty, otherwise the mock series. -/
def get_historical_data_yfinance (env : HistEnv) (symbol period : String) :
    List Bar :=
  match env.yfinHist with
  | some rows =>
    if rows.isEmpty then
      get_mock_historical_data env.md5seed env.uniform env.randint symbol period env.nowDay
    else rows
  | none =>
    get_mock_historical_data env.md5seed env.uniform env.randint symbol period env.nowDay

/-- `get_historical_data(symbol, asset_type, period)` just delegates to
yfinance for every asset type. -/
def get_historical_data (env : HistEnv) (symbol asset_type period : String) :
    List Bar :=
  get_historical_data_yfinance env symbol period

/-- The fields of a bar that make up the price walk (everything except the
calendar date). -/
def Bar.walk (b : Bar) : ℚ × ℚ × ℚ × ℚ × ℕ :=
  (b.openP, b.high, b.low, b.close, b.volume)

end MarketData

namespace Broadcaster

/-- `ConnectionManager` state: `active_connections` is a Python list (order
and multiplicity preserved), `subscriptions` a dict `WebSocket → set`,
modelled as an association list with symbol-lists as sets.  WebSockets are
identified by naturals. -/
structure ConnectionManager where
  active_connections : List ℕ
  subscriptions : List (ℕ × List String)
  deriving DecidableEq, Repr

/-- The manager as constructed by `__init__`. -/
def ConnectionManager.init : ConnectionManager := ⟨[], []⟩

/-- Dict assignment `self.subscriptions[websocket] = set()`: overwrite. -/
def dictSet (subs : List (ℕ × List String)) (ws : ℕ) (v : List String) :
    List (ℕ × List String) :=
  (ws, v) :: subs.filter (fun e => e.1 ≠ ws)

/-- Dict deletion `del self.subscriptions[websocket]` (under an `in` guard,
so deleting an absent key is a no-op here). -/
def dictDel (subs : List (ℕ × List String)) (ws : ℕ) : List (ℕ × List String) :=
  subs.filter (fun e => e.1 ≠ ws)

/-- `connect(websocket)`: append to `active_connections` and create an
empty subscription set. -/
def ConnectionManager.connect (m : ConnectionManager) (ws : ℕ) : ConnectionManager :=
  { active_connections := m.active_connections ++ [ws]
    subscriptions := dictSet m.subscriptions ws [] }

/-- `disconnect(websocket)`: `self.active_connections.remove(websocket)`
raises `ValueError` when the websocket is not in the list (and the state is
then unchanged, since `remove` is the first statement); otherwise the first
occurrence is removed and the subscription entry deleted if present. -/
def ConnectionManager.disconnect (m : ConnectionManager) (ws : ℕ) :
    Except String ConnectionManager :=
  if ws ∈ m.active_connections then
    .ok { active_connections := m.active_connections.erase ws
          subscriptions := dictDel m.subscriptions ws }
  else
    .error "ValueError"

/-- `subscribe(websocket, symbols)`: union into the existing set, only when
the websocket has an entry. -/
def ConnectionManager.subscribe (m : ConnectionManager) (ws : ℕ)
    (symbols : List String) : ConnectionManager :=
  match m.subscriptions.lookup ws with
  | some cur => { m with subscriptions := dictSet m.subscriptions ws (cur ++ symbols) }
  | none => m

/-- `unsubscribe(websocket, symbols)`: set difference, only when the
websocket has an entry. -/
def ConnectionManager.unsubscribe (m : ConnectionManager) (ws : ℕ)
    (symbols : List String) : ConnectionManager :=
  match m.subscriptions.lookup ws with
  | some cur =>
    { m with subscriptions := dictSet m.subscriptions ws (cur.filter (· ∉ symbols)) }
  | none => m

/-- `self.subscriptions.get(connection, set())`. -/
def ConnectionManager.subsOf (m : ConnectionManager) (ws : ℕ) : List String :=
  (m.subscriptions.lookup ws).getD []

/-- The connections `broadcast_price_update(symbol, data)` attempts to send
to: every registered connection whose subscription set contains the
symbol, in registration order. -/
def ConnectionManager.broadcastAttempts (m : ConnectionManager) (symbol : String) :
    List ℕ :=
  m.active_connections.filter (fun c => symbol ∈ m.subsOf c)

/-- `broadcast_price_update` with per-connection send outcomes: `fail c`
means `connection.send_json` raises for `c`; the exception is swallowed
(`except Exception: pass`), so the loop continues and the call returns the
successfully-delivered connections. -/
def ConnectionManager.broadcastDelivered (m : ConnectionManager) (symbol : String)
    (fail : ℕ → Bool) : List ℕ :=
  (m.broadcastAttempts symbol).filter (fun c => ¬ fail c)

/-- The operations the websocket endpoint drives the manager with. -/
inductive Op
  | connect (ws : ℕ)
  | disconnect (ws : ℕ)
  | subscribe (ws : ℕ) (symbols : List String)
  | unsubscribe (ws : ℕ) (symbols : List String)

/-- Apply one operation; a `disconnect` whose `list.remove` raises leaves
the state unchanged (the exception fires before any mutation). -/
def applyOp (m : ConnectionManager) (op : Op) : ConnectionManager :=
  match op with
  | .connect ws => m.connect ws
  | .disconnect ws =>
    match m.disconnect ws with
    | .ok m2 => m2
    | .error _ => m
  | .subscribe ws symbols => m.subscribe ws symbols
  | .unsubscribe ws symbols => m.unsubscribe ws symbols

/-- Registry consistency: every websocket with a subscription entry is
registered. -/
def Consistent (m : ConnectionManager) : Prop :=
  ∀ e ∈ m.subscriptions, e.1 ∈ m.active_connections

end Broadcaster

/-! ## Auxiliary association-list lemmas -/

namespace SpecAux

theorem lookup_mem {α β : Type} [BEq α] [LawfulBEq α]
    {l : List (α × β)} {a : α} {b : β} (h : l.lookup a = some b) : (a, b) ∈ l := by
  induction l with
  | nil => simp [List.lookup] at h
  | cons e t ih =>
    rcases e with ⟨k, v⟩
    rw [List.lookup] at h
    by_cases hak : a == k
    · simp [hak] at h
      simp_all
    · simp [hak] at h
      exact List.mem_cons_of_mem _ (ih h)

theorem filter_ne_lookup_none {α β : Type} [DecidableEq α] [BEq α] [LawfulBEq α]
    {l : List (α × β)} {k : α} :
    (l.filter (fun e => e.1 ≠ k)).lookup k = none := by
  induction l with
  | nil => simp [List.lookup]
  | cons e t ih =>
    rcases e with ⟨k2, v2⟩
    by_cases hk : k2 = k
    · simpa [hk, List.filter] using ih
    · have hstep : ((k2, v2) :: t).filter (fun e => e.1 ≠ k) =
          (k2, v2) :: t.filter (fun e => e.1 ≠ k) := by
        simp [List.filter, hk]
      rw [hstep, List.lookup]
      have hbeq : (k == k2) = false := by simp [Ne.symm hk]
      simp only [hbeq]
      exact ih

theorem lookup_none_of_keys {β : Type} {l : List (String × β)} {a : String}
    (h : a ∉ l.map Prod.fst) : l.lookup a = none := by
  induction l with
  | nil => simp [List.lookup]
  | cons e t ih =>
    rcases e with ⟨k, v⟩
    simp only [List.map, List.mem_cons, not_or] at h
    rw [List.lookup]
    have hbeq : (a == k) = false := by simp [h.1]
    simp only [hbeq]
    exact ih h.2

end SpecAux

namespace MarketData

/-! ## Resolver lemmas -/

/-- On a Python-falsy cache answer (no entry, or a stored `Decimal("0")`)
`get_quote` is exactly the uncached resolution. -/
theorem get_quote_of_cache_falsy {b : RedisBackend} {env : Env}
    {symbol : String} (asset_type : String)
    (hmiss : (get_cached_price b env.now symbol).getD 0 = 0) :
    get_quote b env symbol asset_type = resolveUncached b env symbol asset_type := by
  unfold get_quote
  cases h : get_cached_price b env.now symbol with
  | none => simp
  | some p =>
    rw [h] at hmiss
    simp only [Option.getD_some] at hmiss
    simp [hmiss]

/-- `deriveChange` only touches the `change` field. -/
theorem deriveChange_fields (q : AdapterDict) :
    (deriveChange q).current_price = q.current_price ∧
    (deriveChange q).previous_close = q.previous_close ∧
    (deriveChange q).change_percent = q.change_percent := by
  unfold deriveChange
  split <;> exact ⟨rfl, rfl, rfl⟩

/-- The derivation step never changes `current_price`. -/
theorem deriveFields_current_price {q q2 : AdapterDict}
    (h : deriveFields q = .ok q2) : q2.current_price = q.current_price := by
  unfold deriveFields at h
  split at h
  · split at h
    · cases h
      exact (deriveChange_fields q).1
    · cases h
  · cases h
    exact (deriveChange_fields q).1

/-- The derivation step succeeds whenever the adapter dict does not have a
`change` key holding `None` while lacking the `change_percent` key (the
only shape whose `change / previous_close` would raise a `TypeError`);
this covers every dict the adapters build. -/
theorem deriveFields_ok {q : AdapterDict}
    (h : q.change = none ∨ (∃ c, q.change = some (some c)) ∨ q.change_percent ≠ none) :
    ∃ q2, deriveFields q = .ok q2 ∧ q2.current_price = q.current_price := by
  unfold deriveFields
  split
  · rename_i hcond
    rcases hcond with ⟨hcp, hpc, _⟩
    rw [(deriveChange_fields q).2.1] at hpc
    have hchg : ∃ c, (deriveChange q).change = some (some c) := by
      rcases h with h | ⟨c, h⟩ | h
      · refine ⟨q.current_price - q.previous_close.getD 0, ?_⟩
        unfold deriveChange
        rw [if_pos ⟨h, hpc⟩]
      · refine ⟨c, ?_⟩
        unfold deriveChange
        rw [if_neg]
        · exact h
        · simp [h]
      · rw [(deriveChange_fields q).2.2] at hcp
        exact absurd hcp h
    rcases hchg with ⟨c, hc⟩
    rw [hc]
    exact ⟨_, rfl, (deriveChange_fields q).1⟩
  · exact ⟨_, rfl, (deriveChange_fields q).1⟩

/-- Every base price in the table, and the unknown-symbol default 100,
is positive. -/
theorem base_price_pos (s : String) : 0 < ((base_prices.lookup s).getD 100) := by
  cases h : base_prices.lookup s with
  | none => norm_num
  | some v =>
    have hm := SpecAux.lookup_mem h
    fin_cases hm <;> norm_num

/-! ## Claim theorems: resolver -/

/-- C5: within one minute bucket `get_mock_price` is a pure function of
the symbol; the generated price stays within ±2% of the symbol's seeded
base price; and a symbol absent from the `base_prices` table gets the
fixed base price 100. -/
theorem mock_price_deterministic_and_bounded (md5seed : String → ℕ)
    (uniform : ℚ → ℚ → ℕ → ℚ) (symbol : String) (t1 t2 now : ℕ)
    (hu : ∀ s, -(2/100) ≤ uniform (-(2/100)) (2/100) s ∧
      uniform (-(2/100)) (2/100) s ≤ 2/100) :
    (t1 / 60 = t2 / 60 →
      get_mock_price md5seed uniform symbol t1 =
        get_mock_price md5seed uniform symbol t2) ∧
    |(get_mock_price md5seed uniform symbol now).current_price -
        ((base_prices.lookup symbol).getD 100)| ≤
      (2/100) * ((base_prices.lookup symbol).getD 100) ∧
    (symbol ∉ base_prices.map Prod.fst →
      (get_mock_price md5seed uniform symbol now).previous_close = some 100 ∧
      (get_mock_price md5seed uniform symbol now).current_price =
        100 * (1 + uniform (-(2/100)) (2/100) (md5seed symbol + now / 60))) := by
  refine ⟨fun hbucket => ?_, ?_, fun habsent => ?_⟩
  · simp only [get_mock_price, hbucket]
  · have hb := base_price_pos symbol
    set B : ℚ := (base_prices.lookup symbol).getD 100 with hB
    set u : ℚ := uniform (-(2/100)) (2/100) (md5seed symbol + now / 60) with hu0
    have hcp : (get_mock_price md5seed uniform symbol now).current_price = B * (1 + u) := rfl
    rw [hcp]
    have hdiff : B * (1 + u) - B = B * u := by ring
    rw [hdiff, abs_mul, abs_of_pos hb]
    have habs : |u| ≤ 2/100 := abs_le.mpr ⟨(hu _).1, (hu _).2⟩
    calc B * |u| ≤ B * (2/100) := mul_le_mul_of_nonneg_left habs hb.le
    _ = (2/100) * B := mul_comm _ _
  · have hl : base_prices.lookup symbol = none := SpecAux.lookup_none_of_keys habsent
    constructor
    · show some ((base_prices.lookup symbol).getD 100) = some 100
      rw [hl]
      rfl
    · show ((base_prices.lookup symbol).getD 100) * _ = _
      rw [hl]
      rfl

/-- C5 witness: a constant-zero draw inside the ±2% band, at an unknown
symbol, same bucket. -/
theorem mock_price_deterministic_and_bounded_witness :
    (get_mock_price (fun _ => 0) (fun _ _ _ => 0) "ZZZZ" 61 =
      get_mock_price (fun _ => 0) (fun _ _ _ => 0) "ZZZZ" 65) ∧
    |(get_mock_price (fun _ => 0) (fun _ _ _ => 0) "ZZZZ" 61).current_price -
        ((base_prices.lookup "ZZZZ").getD 100)| ≤
      (2/100) * ((base_prices.lookup "ZZZZ").getD 100) ∧
    (get_mock_price (fun _ => 0) (fun _ _ _ => 0) "ZZZZ" 61).previous_close = some 100 := by
  have h := mock_price_deterministic_and_bounded (fun _ => 0) (fun _ _ _ => 0)
    "ZZZZ" 61 65 61 (fun s => by norm_num)
  exact ⟨h.1 (by norm_num), h.2.1, (h.2.2 (by decide)).1⟩

/-- C2: on a cache miss, a `crypto` resolution consults Binance and only
Binance (neither equities adapter appears in the attempt list), while any
other asset class consults Finnhub first and yfinance exactly when Finnhub
returned `None`. -/
theorem adapter_priority_per_asset_class (b : RedisBackend) (env : Env)
    (symbol asset_type : String)
    (hmiss : (get_cached_price b env.now symbol).getD 0 = 0) :
    (asset_type = "crypto" →
      (get_quote b env symbol asset_type).tried = [Adapter.binance]) ∧
    (asset_type ≠ "crypto" → ∀ q, env.finnhub = some q →
      (get_quote b env symbol asset_type).tried = [Adapter.finnhub]) ∧
    (asset_type ≠ "crypto" → env.finnhub = none →
      (get_quote b env symbol asset_type).tried = [Adapter.finnhub, Adapter.yfinance]) := by
  rw [get_quote_of_cache_falsy asset_type hmiss]
  have htried : (resolveUncached b env symbol asset_type).tried =
      (selectAdapters env symbol asset_type).2 := by
    unfold resolveUncached
    split
    · rfl
    · split <;> rfl
  rw [htried]
  refine ⟨fun hc => ?_, fun hc q hq => ?_, fun hc hq => ?_⟩
  · simp [selectAdapters, hc]
  · simp [selectAdapters, hc, hq]
  · simp [selectAdapters, hc, hq]

/-- C2 witness: with an empty cache and a stubbed environment, a crypto
resolution tries only Binance. -/
theorem adapter_priority_per_asset_class_witness :
    (get_quote RedisBackend.absent
      ⟨none, none, none, fun _ => 0, fun _ _ _ => 0, 0⟩ "BTCUSD" "crypto").tried
      = [Adapter.binance] :=
  (adapter_priority_per_asset_class RedisBackend.absent
    ⟨none, none, none, fun _ => 0, fun _ _ _ => 0, 0⟩ "BTCUSD" "crypto" rfl).1 rfl

/-- A `SETEX` write is read back by `get`. -/
theorem storeSet_lookup (st : List (String × ℚ × ℕ)) (k : String) (v : ℚ × ℕ) :
    (storeSet st k v).lookup k = some v := by
  simp [storeSet, List.lookup]

/-- C3: (hit) when the cache holds a fresh positive price `p` for the
symbol, `get_quote` returns it immediately with `cached=True`, consulting
no adapter and leaving the backend untouched; (coherence) hence after a
cache-miss resolution against a live backend that produced a quote with a
positive price, a second resolution within the 10-second ttl window
returns that same price tagged `cached=True`. -/
theorem cache_hit_and_coherence (b : RedisBackend) (env env2 : Env)
    (symbol asset_type : String) (p : ℚ) (st : List (String × ℚ × ℕ)) (q : Quote) :
    (get_cached_price b env.now symbol = some p → 0 < p →
      get_quote b env symbol asset_type =
        ⟨Except.ok { symbol := symbol, asset_type := asset_type,
                     current_price := p, cached := true }, b, []⟩) ∧
    (b = RedisBackend.live st →
      (get_cached_price b env.now symbol).getD 0 = 0 →
      (get_quote b env symbol asset_type).result = Except.ok q →
      env2.now < env.now + 10 →
      0 < q.current_price →
      (get_quote (get_quote b env symbol asset_type).cache env2 symbol asset_type).result =
        Except.ok { symbol := symbol, asset_type := asset_type,
                    current_price := q.current_price, cached := true }) := by
  constructor
  · intro hp hpos
    unfold get_quote
    rw [hp]
    simp [hpos.ne']
  · rintro rfl hmiss hok hwin hpos
    rw [get_quote_of_cache_falsy asset_type hmiss] at hok ⊢
    unfold resolveUncached at hok ⊢
    cases hsel : (selectAdapters env symbol asset_type).1 with
    | none => simp [hsel] at hok
    | some qd =>
      cases hd : deriveFields qd with
      | error e => simp [hsel, hd] at hok
      | ok qd2 =>
        simp only [hsel, hd, Except.ok.injEq] at hok ⊢
        have hq : mkQuote symbol asset_type qd2 = q := hok
        have hqp : q.current_price = qd.current_price := by
          rw [← hq]
          exact deriveFields_current_price hd
        show (get_quote (set_cached_price (RedisBackend.live st) env.now symbol
          qd.current_price) env2 symbol asset_type).result = _
        have hget : get_cached_price (set_cached_price (RedisBackend.live st)
            env.now symbol qd.current_price) env2.now symbol =
            some qd.current_price := by
          show (match (storeSet st ("price:" ++ symbol)
            (qd.current_price, env.now + 10)).lookup ("price:" ++ symbol) with
            | some (v, exp) => if env2.now < exp then some v else none
            | none => none) = some qd.current_price
          rw [storeSet_lookup]
          simp [hwin]
        unfold get_quote
        rw [hget]
        have hne : qd.current_price ≠ 0 := by
          rw [← hqp]
          exact hpos.ne'
        simp only [ne_eq, hne, not_false_iff, if_true, hqp]

/-- C3 witness: from an empty live backend, a crypto resolution at `t = 0`
answering price 7 is served from cache at `t = 5` with `cached=true`. -/
theorem cache_hit_and_coherence_witness :
    (get_quote (get_quote (RedisBackend.live [])
        ⟨none, none, some { current_price := 7 }, fun _ => 0, fun _ _ _ => 0, 0⟩
        "BTCUSD" "crypto").cache
      ⟨none, none, some { current_price := 7 }, fun _ => 0, fun _ _ _ => 0, 5⟩
      "BTCUSD" "crypto").result =
      Except.ok { symbol := "BTCUSD", asset_type := "crypto",
                  current_price := 7, cached := true } := by
  have h := (cache_hit_and_coherence (RedisBackend.live [])
    ⟨none, none, some { current_price := 7 }, fun _ => 0, fun _ _ _ => 0, 0⟩
    ⟨none, none, some { current_price := 7 }, fun _ => 0, fun _ _ _ => 0, 5⟩
    "BTCUSD" "crypto" 1 []
    { symbol := "BTCUSD", asset_type := "crypto", current_price := 7,
      previous_close := none }).2
  exact h rfl rfl rfl (by norm_num) (by norm_num)

/-- C4: on a cache miss (not a cache hit), when the selected adapter dict
lacks the `change` key but carries `current_price` and a nonzero
`previous_close`, the resolver output contains
`change = current_price - previous_close`; when additionally the
`change_percent` key is absent and `previous_close > 0`, it contains
`change_percent = change / previous_close * 100`. -/
theorem derived_change_fields (b : RedisBackend) (env : Env)
    (symbol asset_type : String) (qd : AdapterDict) (pc : ℚ)
    (hac : asset_type ≠ "crypto")
    (hmiss : (get_cached_price b env.now symbol).getD 0 = 0)
    (hfinn : env.finnhub = some qd)
    (hch : qd.change = none)
    (hpc : qd.previous_close = some pc)
    (hpc0 : pc ≠ 0) :
    ∃ q, (get_quote b env symbol asset_type).result = Except.ok q ∧
      q.current_price = qd.current_price ∧
      q.change = some (qd.current_price - pc) ∧
      (qd.change_percent = none → 0 < pc →
        q.change_percent = some ((qd.current_price - pc) / pc * 100)) := by
  rw [get_quote_of_cache_falsy asset_type hmiss]
  have hsel : (selectAdapters env symbol asset_type).1 = some qd := by
    simp [selectAdapters, hac, hfinn]
  have hderive : deriveChange qd =
      { qd with change := some (some (qd.current_price - pc)) } := by
    unfold deriveChange
    rw [if_pos ⟨hch, by simp [truthyPC, hpc, hpc0]⟩, hpc]
    rfl
  unfold resolveUncached
  rw [hsel]
  by_cases hfire : qd.change_percent = none ∧ 0 < pc
  · have hdf : deriveFields qd = Except.ok
        { qd with change := some (some (qd.current_price - pc)),
                  change_percent :=
                    some (some ((qd.current_price - pc) / pc * 100)) } := by
      unfold deriveFields
      rw [hderive]
      rw [if_pos]
      · simp [hpc]
      · refine ⟨hfire.1, ?_, ?_⟩
        · simp [truthyPC, hpc, hpc0]
        · simp [hpc, hfire.2]
    simp only [hdf]
    refine ⟨_, rfl, rfl, ?_, ?_⟩
    · show Option.join (some (some (qd.current_price - pc))) = _
      rfl
    · intro _ _
      rfl
  · have hnofire : ¬((deriveChange qd).change_percent = none ∧
        truthyPC (deriveChange qd).previous_close = true ∧
        (deriveChange qd).previous_close.getD 0 > 0) := by
      rw [hderive]
      intro hcon
      refine hfire ⟨hcon.1, ?_⟩
      have := hcon.2.2
      rw [show ({ qd with change := some (some (qd.current_price - pc))} :
        AdapterDict).previous_close = some pc from hpc] at this
      simpa using this
    have hdf : deriveFields qd = Except.ok (deriveChange qd) := by
      unfold deriveFields
      rw [if_neg hnofire]
    simp only [hdf, hderive]
    refine ⟨_, rfl, rfl, ?_, ?_⟩
    · show Option.join (some (some (qd.current_price - pc))) = _
      rfl
    · intro h1 h2
      exact absurd ⟨h1, h2⟩ hfire

/-- C4 witness: `current_price = 110`, `previous_close = 100`, no explicit
change fields: the resolver output has `change = 10` and
`change_percent = 10`. -/
theorem derived_change_fields_witness :
    ∃ q, (get_quote RedisBackend.absent
        ⟨some { current_price := 110, previous_close := some 100 }, none, none,
         fun _ => 0, fun _ _ _ => 0, 0⟩ "AAPL" "equity").result = Except.ok q ∧
      q.current_price = (110 : ℚ) ∧
      q.change = some (10 : ℚ) ∧
      q.change_percent = some (10 : ℚ) := by
  have h := derived_change_fields RedisBackend.absent
    ⟨some { current_price := 110, previous_close := some 100 }, none, none,
     fun _ => 0, fun _ _ _ => 0, 0⟩ "AAPL" "equity"
    { current_price := 110, previous_close := some 100 } 100
    (by decide) rfl rfl rfl rfl (by norm_num)
  rcases h with ⟨q, hq, hcp, hchg, hcpct⟩
  refine ⟨q, hq, hcp, ?_, ?_⟩
  · rw [hchg]
    norm_num
  · rw [hcpct rfl (by norm_num)]
    norm_num

/-- The mock price is positive whenever the uniform draw respects its
lower bound. -/
theorem mock_price_pos (md5seed : String → ℕ) (uniform : ℚ → ℚ → ℕ → ℚ)
    (symbol : String) (now : ℕ)
    (hu : ∀ s, -(2/100) ≤ uniform (-(2/100)) (2/100) s) :
    0 < (get_mock_price md5seed uniform symbol now).current_price := by
  have hb := base_price_pos symbol
  have h1 : (0:ℚ) < 1 + uniform (-(2/100)) (2/100) (md5seed symbol + now / 60) := by
    have := hu (md5seed symbol + now / 60)
    linarith
  exact mul_pos hb h1

/-- On a successful adapter answer with a positive price and a
derivable-field shape, the uncached resolver returns a quote with that
positive price. -/
theorem resolveUncached_ok (b : RedisBackend) (env : Env)
    (symbol asset_type : String) (qd : AdapterDict)
    (hsel : (selectAdapters env symbol asset_type).1 = some qd)
    (hpos : 0 < qd.current_price)
    (hshape : qd.change = none ∨ (∃ c, qd.change = some (some c)) ∨
      qd.change_percent ≠ none) :
    ∃ q, (resolveUncached b env symbol asset_type).result = Except.ok q ∧
      0 < q.current_price := by
  obtain ⟨qd2, hdf, hcpeq⟩ := deriveFields_ok hshape
  unfold resolveUncached
  simp only [hsel, hdf]
  refine ⟨_, rfl, ?_⟩
  show 0 < qd2.current_price
  rw [hcpeq]
  exact hpos

/-- C1 counterexample: with no cache and the Binance adapter failing, a
crypto resolution raises `ValueError` instead of falling back to the
synthetic generator — `get_quote` is not total. -/
theorem crypto_resolution_raises_on_failure :
    (get_quote RedisBackend.absent
      ⟨none, none, none, fun _ => 0, fun _ _ _ => 0, 0⟩ "BTCUSD" "crypto").result =
      Except.error "Unable to fetch quote for BTCUSD" := rfl

/-- C1 amended: for every non-crypto asset class `get_quote` never raises
and returns a positive price — when both real equities sources fail it
resolves via the synthetic mock fallback; but for the crypto asset class
there is no fallback: when the Binance adapter fails on a cache miss,
`get_quote` raises `ValueError`.  (Cached prices and real adapter answers
are assumed positive with the key shapes the adapters actually build.) -/
theorem noncrypto_resolution_total (b : RedisBackend) (env : Env)
    (symbol asset_type : String)
    (hac : asset_type ≠ "crypto")
    (hcache : ∀ p, get_cached_price b env.now symbol = some p → 0 < p)
    (hfinn : ∀ q, env.finnhub = some q →
      0 < q.current_price ∧ q.change_percent ≠ none)
    (hyf : ∀ q, env.yfin = some q → 0 < q.current_price ∧ q.change = none)
    (hu : ∀ s, -(2/100) ≤ env.uniform (-(2/100)) (2/100) s) :
    (∃ q, (get_quote b env symbol asset_type).result = Except.ok q ∧
      0 < q.current_price) ∧
    (∀ sym2, env.crypto = none → (get_cached_price b env.now sym2).getD 0 = 0 →
      (get_quote b env sym2 "crypto").result =
        Except.error ("Unable to fetch quote for " ++ sym2)) := by
  constructor
  · cases hcp : get_cached_price b env.now symbol with
    | some p =>
      have hpos := hcache p hcp
      unfold get_quote
      rw [hcp]
      simp only [ne_eq, hpos.ne', not_false_iff, if_true]
      exact ⟨_, rfl, hpos⟩
    | none =>
      rw [get_quote_of_cache_falsy asset_type (by rw [hcp]; rfl)]
      cases hf : env.finnhub with
      | some qf =>
        exact resolveUncached_ok b env symbol asset_type qf
          (by simp [selectAdapters, hac, hf]) (hfinn qf hf).1
          (Or.inr (Or.inr (hfinn qf hf).2))
      | none =>
        have hsel : (selectAdapters env symbol asset_type).1 =
            some (get_stock_quote_yfinance env symbol) := by
          simp [selectAdapters, hac, hf]
        cases hy : env.yfin with
        | some qy =>
          have hgy : get_stock_quote_yfinance env symbol = qy := by
            unfold get_stock_quote_yfinance
            rw [hy]
          rw [hgy] at hsel
          exact resolveUncached_ok b env symbol asset_type qy hsel
            (hyf qy hy).1 (Or.inl (hyf qy hy).2)
        | none =>
          have hgy : get_stock_quote_yfinance env symbol =
              get_mock_price env.md5seed env.uniform symbol env.now := by
            unfold get_stock_quote_yfinance
            rw [hy]
          rw [hgy] at hsel
          exact resolveUncached_ok b env symbol asset_type _ hsel
            (mock_price_pos env.md5seed env.uniform symbol env.now hu)
            (Or.inr (Or.inl ⟨_, rfl⟩))
  · intro sym2 hcrypto hmiss
    rw [get_quote_of_cache_falsy "crypto" hmiss]
    unfold resolveUncached
    have hsel : (selectAdapters env sym2 "crypto").1 = none := by
      simp [selectAdapters, get_crypto_price, hcrypto]
    simp only [hsel]

/-- C1 witness: empty cache, all real adapters down, equity asset class:
the mock fallback produces a positive price; and the crypto asset class
errors. -/
theorem noncrypto_resolution_total_witness :
    (∃ q, (get_quote RedisBackend.absent
        ⟨none, none, none, fun _ => 0, fun _ _ _ => 0, 0⟩ "AAPL" "equity").result =
      Except.ok q ∧ 0 < q.current_price) ∧
    (∀ sym2, (none : Option AdapterDict) = none →
      (get_cached_price RedisBackend.absent 0 sym2).getD 0 = 0 →
      (get_quote RedisBackend.absent
        ⟨none, none, none, fun _ => 0, fun _ _ _ => 0, 0⟩ sym2 "crypto").result =
        Except.error ("Unable to fetch quote for " ++ sym2)) :=
  noncrypto_resolution_total RedisBackend.absent
    ⟨none, none, none, fun _ => 0, fun _ _ _ => 0, 0⟩ "AAPL" "equity"
    (by decide) (fun p hp => by simp [get_cached_price] at hp)
    (fun q hq => by simp at hq) (fun q hq => by simp at hq)
    (fun s => by norm_num)

/-- C9: with the Redis client absent, or with a backend whose operations
raise (the exceptions are caught), `get_cached_price` answers absent,
`set_cached_price` leaves the backend unchanged, and `get_quote` behaves
exactly as the uncached resolution. -/
theorem cache_unavailable_degrades (b : RedisBackend) (env : Env)
    (symbol asset_type : String) (price : ℚ) (ttl : ℕ)
    (hb : b = RedisBackend.absent ∨ b = RedisBackend.failing) :
    get_cached_price b env.now symbol = none ∧
    set_cached_price b env.now symbol price ttl = b ∧
    get_quote b env symbol asset_type = resolveUncached b env symbol asset_type := by
  rcases hb with h | h <;> subst h <;>
    exact ⟨rfl, rfl, get_quote_of_cache_falsy asset_type rfl⟩

/-- C9 witness at the absent backend. -/
theorem cache_unavailable_degrades_witness :
    get_cached_price RedisBackend.absent 0 "AAPL" = none ∧
    set_cached_price RedisBackend.absent 0 "AAPL" 5 10 = RedisBackend.absent := by
  have h := cache_unavailable_degrades RedisBackend.absent
    ⟨none, none, none, fun _ => 0, fun _ _ _ => 0, 0⟩ "AAPL" "equity" 5 10 (Or.inl rfl)
  exact ⟨h.1, h.2.1⟩

/-! ## Historical-series lemmas -/

/-- The mock walk emits exactly one bar per loop iteration. -/
theorem mockHistAux_length (uniform : ℚ → ℚ → ℕ → ℕ → ℚ)
    (randint : ℕ → ℕ → ℕ → ℕ → ℕ) (seed : ℕ) (nowDay : ℤ) :
    ∀ (i : ℕ) (price : ℚ) (idx rIdx : ℕ),
      (mockHistAux uniform randint seed nowDay price i idx rIdx).length = i := by
  intro i
  induction i with
  | zero => intro price idx rIdx; rfl
  | succ i ih =>
    intro price idx rIdx
    unfold mockHistAux
    simp [ih]

/-- Every period token maps to at least one day (the default is 30). -/
theorem daysFor_pos (period : String) : 0 < daysFor period := by
  unfold daysFor
  cases h : (([("1d", 1), ("5d", 5), ("1mo", 30), ("3mo", 90), ("6mo", 180),
      ("1y", 365)] : List (String × ℕ)).lookup period) with
  | none => norm_num
  | some v =>
    have hm := SpecAux.lookup_mem h
    fin_cases hm <;> norm_num

/-- Every bar of the mock walk is dated in `[nowDay - i, nowDay)`. -/
theorem mockHistAux_date_bounds (uniform : ℚ → ℚ → ℕ → ℕ → ℚ)
    (randint : ℕ → ℕ → ℕ → ℕ → ℕ) (seed : ℕ) (nowDay : ℤ) :
    ∀ (i : ℕ) (price : ℚ) (idx rIdx : ℕ),
      ∀ b ∈ mockHistAux uniform randint seed nowDay price i idx rIdx,
        nowDay - i ≤ b.date ∧ b.date < nowDay := by
  intro i
  induction i with
  | zero => intro price idx rIdx b hb; cases hb
  | succ i ih =>
    intro price idx rIdx b hb
    rw [mockHistAux] at hb
    rcases List.mem_cons.mp hb with hb | hb
    · subst hb
      constructor
      · exact le_refl _
      · show nowDay - ((i + 1 : ℕ) : ℤ) < nowDay
        omega
    · have hih := ih _ _ _ b hb
      have h1 := hih.1
      constructor
      · omega
      · exact hih.2

/-- The price walk of the mock series does not depend on the current
date. -/
theorem mockHistAux_walk_indep (uniform : ℚ → ℚ → ℕ → ℕ → ℚ)
    (randint : ℕ → ℕ → ℕ → ℕ → ℕ) (seed : ℕ) (d1 d2 : ℤ) :
    ∀ (i : ℕ) (price : ℚ) (idx rIdx : ℕ),
      (mockHistAux uniform randint seed d1 price i idx rIdx).map Bar.walk =
        (mockHistAux uniform randint seed d2 price i idx rIdx).map Bar.walk := by
  intro i
  induction i with
  | zero => intro price idx rIdx; rfl
  | succ i ih =>
    intro price idx rIdx
    unfold mockHistAux
    simp only [List.map_cons, ih]
    rfl

/-- The mock walk is strictly ordered by date, oldest first. -/
theorem mockHistAux_pairwise (uniform : ℚ → ℚ → ℕ → ℕ → ℚ)
    (randint : ℕ → ℕ → ℕ → ℕ → ℕ) (seed : ℕ) (nowDay : ℤ) :
    ∀ (i : ℕ) (price : ℚ) (idx rIdx : ℕ),
      List.Pairwise (fun a b => a.date < b.date)
        (mockHistAux uniform randint seed nowDay price i idx rIdx) := by
  intro i
  induction i with
  | zero => intro price idx rIdx; exact List.Pairwise.nil
  | succ i ih =>
    intro price idx rIdx
    rw [mockHistAux]
    refine List.Pairwise.cons ?_ (ih _ _ _)
    intro b hb
    have hlb := (mockHistAux_date_bounds uniform randint seed nowDay i _ _ _ b hb).1
    show nowDay - ((i : ℤ) + 1) < b.date
    omega

/-- The mock series is strictly ordered by date, oldest first. -/
theorem mock_hist_sorted (md5seed : String → ℕ) (uniform : ℚ → ℚ → ℕ → ℕ → ℚ)
    (randint : ℕ → ℕ → ℕ → ℕ → ℕ) (symbol period : String) (nowDay : ℤ) :
    List.Pairwise (fun a b => a.date < b.date)
      (get_mock_historical_data md5seed uniform randint symbol period nowDay) := by
  unfold get_mock_historical_data
  exact mockHistAux_pairwise _ _ _ _ _ _ _ _

/-- Equation for `get_historical_data_yfinance` when the dataframe call
succeeded. -/
theorem ghd_yfinance_some (env : HistEnv) (symbol period : String)
    (rows : List Bar) (h : env.yfinHist = some rows) :
    get_historical_data_yfinance env symbol period =
      if rows.isEmpty = true then
        get_mock_historical_data env.md5seed env.uniform env.randint symbol
          period env.nowDay
      else rows := by
  unfold get_historical_data_yfinance
  rw [h]

/-- Equation for `get_historical_data_yfinance` when the dataframe call
raised. -/
theorem ghd_yfinance_none (env : HistEnv) (symbol period : String)
    (h : env.yfinHist = none) :
    get_historical_data_yfinance env symbol period =
      get_mock_historical_data env.md5seed env.uniform env.randint symbol
        period env.nowDay := by
  unfold get_historical_data_yfinance
  rw [h]

/-- C6: the history resolver always returns a non-empty series ordered
oldest-first (assuming the real adapter's rows, when used, are so
ordered); whenever the real adapter raises or returns no rows the mock
series seeded only by the symbol is substituted, and the substituted
price walk is independent of the current date. -/
theorem historical_series_total_sorted_deterministic (env : HistEnv)
    (symbol asset_type period : String)
    (hreal : ∀ rows, env.yfinHist = some rows →
      List.Pairwise (fun a b => a.date < b.date) rows) :
    get_historical_data env symbol asset_type period ≠ [] ∧
    List.Pairwise (fun a b => a.date < b.date)
      (get_historical_data env symbol asset_type period) ∧
    ((env.yfinHist = none ∨ env.yfinHist = some []) →
      get_historical_data env symbol asset_type period =
        get_mock_historical_data env.md5seed env.uniform env.randint symbol
          period env.nowDay) ∧
    (∀ d1 d2 : ℤ,
      (get_mock_historical_data env.md5seed env.uniform env.randint symbol
        period d1).map Bar.walk =
      (get_mock_historical_data env.md5seed env.uniform env.randint symbol
        period d2).map Bar.walk) := by
  have hmock_len : ∀ d : ℤ,
      (get_mock_historical_data env.md5seed env.uniform env.randint symbol
        period d).length = daysFor period := by
    intro d
    unfold get_mock_historical_data
    exact mockHistAux_length _ _ _ _ _ _ _ _
  have hmock_ne : ∀ d : ℤ,
      get_mock_historical_data env.md5seed env.uniform env.randint symbol
        period d ≠ [] := by
    intro d h
    have := hmock_len d
    rw [h] at this
    exact (daysFor_pos period).ne (by simpa using this)
  refine ⟨?_, ?_, ?_, ?_⟩
  · unfold get_historical_data
    cases h : env.yfinHist with
    | none =>
      rw [ghd_yfinance_none env symbol period h]
      exact hmock_ne env.nowDay
    | some rows =>
      rw [ghd_yfinance_some env symbol period rows h]
      by_cases he : rows.isEmpty = true
      · rw [if_pos he]
        exact hmock_ne env.nowDay
      · rw [if_neg he]
        intro hnil
        rw [hnil] at he
        exact he rfl
  · unfold get_historical_data
    cases h : env.yfinHist with
    | none =>
      rw [ghd_yfinance_none env symbol period h]
      exact mock_hist_sorted _ _ _ _ _ _
    | some rows =>
      rw [ghd_yfinance_some env symbol period rows h]
      by_cases he : rows.isEmpty = true
      · rw [if_pos he]
        exact mock_hist_sorted _ _ _ _ _ _
      · rw [if_neg he]
        exact hreal rows h
  · intro hfail
    unfold get_historical_data
    rcases hfail with h | h
    · exact ghd_yfinance_none env symbol period h
    · rw [ghd_yfinance_some env symbol period [] h]
      rfl
  · intro d1 d2
    unfold get_mock_historical_data
    exact mockHistAux_walk_indep _ _ _ _ _ _ _ _ _

/-- C6 witness: real adapter raising, concrete stub generators. -/
theorem historical_series_total_sorted_deterministic_witness :
    get_historical_data
      ⟨none, fun _ => 0, fun _ _ _ _ => 0, fun _ _ _ _ => 0, 0⟩
      "AAPL" "stock" "1mo" ≠ [] ∧
    List.Pairwise (fun a b => a.date < b.date)
      (get_historical_data
        ⟨none, fun _ => 0, fun _ _ _ _ => 0, fun _ _ _ _ => 0, 0⟩
        "AAPL" "stock" "1mo") := by
  have h := historical_series_total_sorted_deterministic
    ⟨none, fun _ => 0, fun _ _ _ _ => 0, fun _ _ _ _ => 0, 0⟩
    "AAPL" "stock" "1mo" (fun rows hrows => by cases hrows)
  exact ⟨h.1, h.2.1⟩

end MarketData

namespace Broadcaster

/-- C7: `broadcast_price_update` attempts delivery to exactly the
registered connections whose subscription set contains the symbol, and a
connection it attempted receives the update precisely when its own send
does not fail — one peer's failure is swallowed and never blocks the
others (the call is total and returns the delivered list). -/
theorem broadcast_targets_subscribed (m : ConnectionManager) (symbol : String)
    (fail : ℕ → Bool) (c : ℕ) :
    (c ∈ m.broadcastAttempts symbol ↔
      c ∈ m.active_connections ∧ symbol ∈ m.subsOf c) ∧
    (c ∈ m.broadcastDelivered symbol fail ↔
      c ∈ m.active_connections ∧ symbol ∈ m.subsOf c ∧ fail c = false) := by
  constructor
  · simp [ConnectionManager.broadcastAttempts]
  · simp only [ConnectionManager.broadcastDelivered, ConnectionManager.broadcastAttempts,
      List.mem_filter, decide_eq_true_eq, Bool.not_eq_true', and_assoc,
      Bool.not_eq_true]

/-- C8 counterexample: `disconnect` is not idempotent — after connecting
websocket `0` and disconnecting it once, a second `disconnect` raises
`ValueError` (from `list.remove` on a list not containing the element). -/
theorem disconnect_second_call_raises :
    (ConnectionManager.init.connect 0).disconnect 0 =
      Except.ok (⟨[], []⟩ : ConnectionManager) ∧
    (⟨[], []⟩ : ConnectionManager).disconnect 0 = Except.error "ValueError" := by
  constructor
  · rfl
  · rfl

/-- C8 amended: a successful `disconnect` of a connection registered once
removes it from the registry and deletes its subscription entry, so no
later broadcast attempts delivery to it; but the operation is not
idempotent — a second call for the same connection raises `ValueError`. -/
theorem disconnect_removes_connection (m m2 : ConnectionManager) (ws : ℕ)
    (hcount : m.active_connections.count ws = 1)
    (hok : m.disconnect ws = Except.ok m2) :
    ws ∉ m2.active_connections ∧
    m2.subscriptions.lookup ws = none ∧
    (∀ symbol, ws ∉ m2.broadcastAttempts symbol) ∧
    m2.disconnect ws = Except.error "ValueError" := by
  unfold ConnectionManager.disconnect at hok
  by_cases hmem : ws ∈ m.active_connections
  · rw [if_pos hmem] at hok
    cases hok
    have hnot : ws ∉ m.active_connections.erase ws := by
      intro hin
      have := List.count_erase_self ws m.active_connections
      rw [hcount] at this
      exact (List.count_pos_iff.mpr hin).ne' (by simpa using this)
    refine ⟨hnot, ?_, fun symbol hin => ?_, ?_⟩
    · show List.lookup ws (dictDel m.subscriptions ws) = none
      unfold dictDel
      exact SpecAux.filter_ne_lookup_none
    · exact hnot (List.mem_of_mem_filter hin)
    · unfold ConnectionManager.disconnect
      rw [if_neg hnot]
  · rw [if_neg hmem] at hok
    cases hok

/-- C8 witness: the concrete one-connection manager. -/
theorem disconnect_removes_connection_witness :
    (0 : ℕ) ∉ (⟨[], []⟩ : ConnectionManager).active_connections ∧
    (⟨[], []⟩ : ConnectionManager).subscriptions.lookup 0 = none ∧
    (∀ symbol, (0 : ℕ) ∉ (⟨[], []⟩ : ConnectionManager).broadcastAttempts symbol) ∧
    (⟨[], []⟩ : ConnectionManager).disconnect 0 = Except.error "ValueError" :=
  disconnect_removes_connection (ConnectionManager.init.connect 0) ⟨[], []⟩ 0
    (by decide) rfl

/-- C10: after any operation sequence starting from the freshly-constructed
manager, every websocket holding a subscription entry is registered in
`active_connections`. -/
theorem registry_consistency (ops : List Op) :
    Consistent (ops.foldl applyOp ConnectionManager.init) := by
  have hstep : ∀ (m : ConnectionManager) (op : Op),
      Consistent m → Consistent (applyOp m op) := by
    intro m op hC
    cases op with
    | connect ws =>
      intro e he
      simp only [applyOp, ConnectionManager.connect, dictSet, List.mem_cons] at he ⊢
      rcases he with he | he
      · subst he
        simp
      · exact List.mem_append_left _ (hC e (List.mem_of_mem_filter he))
    | disconnect ws =>
      simp only [applyOp]
      cases hd : m.disconnect ws with
      | error e => exact hC
      | ok m2 =>
        unfold ConnectionManager.disconnect at hd
        by_cases hmem : ws ∈ m.active_connections
        · rw [if_pos hmem] at hd
          cases hd
          intro e he
          simp only [dictDel, List.mem_filter, decide_eq_true_eq] at he
          exact List.mem_erase_of_ne he.2 |>.mpr (hC e he.1)
        · rw [if_neg hmem] at hd
          cases hd
    | subscribe ws symbols =>
      simp only [applyOp]
      unfold ConnectionManager.subscribe
      cases hl : m.subscriptions.lookup ws with
      | none => exact hC
      | some cur =>
        intro e he
        simp only [dictSet, List.mem_cons] at he
        rcases he with he | he
        · subst he
          exact hC (ws, cur) (SpecAux.lookup_mem hl)
        · exact hC e (List.mem_of_mem_filter he)
    | unsubscribe ws symbols =>
      simp only [applyOp]
      unfold ConnectionManager.unsubscribe
      cases hl : m.subscriptions.lookup ws with
      | none => exact hC
      | some cur =>
        intro e he
        simp only [dictSet, List.mem_cons] at he
        rcases he with he | he
        · subst he
          exact hC (ws, cur) (SpecAux.lookup_mem hl)
        · exact hC e (List.mem_of_mem_filter he)
  have hfold : ∀ (ops : List Op) (m : ConnectionManager),
      Consistent m → Consistent (ops.foldl applyOp m) := by
    intro ops
    induction ops with
    | nil => exact fun m h => h
    | cons op rest ih =>
      intro m h
      exact ih _ (hstep m op h)
  exact hfold ops ConnectionManager.init (by intro e he; cases he)

end Broadcaster
